import Mathlib

/-!
Shallow embedding of `api-put-object-streaming.go` from the minio-go
client library (streaming multipart upload engine).

Collaborators that live outside the source of this file (error constructors,
`ToErrorResponse`, the HTTP executor, `uploadPart`, `completeMultipartUpload`,
endpoint classification) are represented either as explicitly modelled
data (error values with their S3 code/message) or as oracle parameters
(functions passed into the embedded operations).  The control flow,
accumulation and checks of the Go functions themselves are translated
directly from the source.
-/

namespace MinioGo

/-- Modelled from the spec: the error taxonomy of the upload engine.
`errorResponse` is a generic service `ErrorResponse` carrying an S3 error
code and message; the structured constructors correspond to the client-side
error constructors `ErrEntityTooLarge`, `ErrEntityTooSmall`,
`ErrUnexpectedEOF`, `ErrInvalidArgument` (collaborators outside this source
file); `eof` is `io.EOF`; `otherErr` is any error that is not an
`ErrorResponse` at all. -/
inductive UploadError where
  | errorResponse (code message : String)
  | entityTooLarge (totalSize maxObjectSize : Int) (bucket object : String)
  | entityTooSmall (totalSize : Int) (bucket object : String)
  | unexpectedEOF (totalRead totalSize : Int) (bucket object : String)
  | invalidArgument (message : String)
  | eof
  | otherErr (tag : String)
deriving DecidableEq, Repr

/-- The `Code`/`Message` view of an error, as produced by the collaborator
`ToErrorResponse`. -/
structure ErrorResponse where
  Code : String
  Message : String
deriving DecidableEq, Repr

/-- Checks whether `needle` occurs at the head of `hay`
(executable model of a prefix test on character lists). -/
def prefixMatch : List Char → List Char → Bool
  | [], _ => true
  | _ :: _, [] => false
  | a :: as, b :: bs => a == b && prefixMatch as bs

/-- Modelled from the spec: the Go function `strings.Contains(hay, needle)` — substring
occurrence test. -/
def strContains (hay needle : String) : Bool :=
  (List.range (hay.toList.length + 1)).any
    (fun i => prefixMatch needle.toList (hay.toList.drop i))

/-- Modelled from the spec: `ToErrorResponse` converts an error to its
`ErrorResponse` view; errors that are not `ErrorResponse` values (such as
`io.EOF`) convert to the zero value.  The structured client-side errors
carry their documented codes; none of their messages contains the text
"Access Denied". -/
def ToErrorResponse : UploadError → ErrorResponse
  | .errorResponse code message => ⟨code, message⟩
  | .entityTooLarge _ _ _ _ =>
      ⟨"EntityTooLarge",
       "Your proposed upload size exceeds the maximum allowed object size."⟩
  | .entityTooSmall _ _ _ =>
      ⟨"EntityTooSmall", "Your proposed upload size is below the minimum allowed object size."⟩
  | .unexpectedEOF _ _ _ _ =>
      ⟨"UnexpectedEOF", "Data read is smaller than the given size."⟩
  | .invalidArgument message => ⟨"InvalidArgument", message⟩
  | .eof => ⟨"", ""⟩
  | .otherErr _ => ⟨"", ""⟩

/-- Modelled from the spec: the single-shot size ceiling
`maxSinglePutObjectSize` (5 GiB, per the constant in the client and the
"5GiB" comment at the fallback site). -/
def maxSinglePutObjectSize : Int := 5 * 1024 * 1024 * 1024

/-- The multipart-unsupported signature checked at the fallback site:
error code `"AccessDenied"` and message containing `"Access Denied"`
(source lines 62–66). -/
def multipartUnsupported (e : UploadError) : Bool :=
  (ToErrorResponse e).Code == "AccessDenied" &&
    strContains (ToErrorResponse e).Message "Access Denied"

/-- Model of `putObjectMultipartStream` (source lines 46–76), abstracted over the
result `inner` of the dispatched multipart path
(`putObjectMultipartStreamFromReadAt` or
`putObjectMultipartStreamNoChecksum`) and over the result `singleShot`
of the fallback call `putObjectNoChecksum` on the same reader and
metadata.  Returns the pair `(n, err)`. -/
def putObjectMultipartStream (bucketName objectName : String) (size : Int)
    (inner : Int × Option UploadError)
    (singleShot : Int × Option UploadError) : Int × Option UploadError :=
  match inner with
  | (n, none) => (n, none)
  | (n, some e) =>
    if multipartUnsupported e then
      if size > maxSinglePutObjectSize then
        (0, some (.entityTooLarge size maxSinglePutObjectSize bucketName objectName))
      else
        singleShot
    else
      (n, some e)

/-- Part metadata returned by the collaborator `uploadPart`. -/
structure ObjectPart where
  PartNumber : Int
  ETag : String
  Size : Int
deriving DecidableEq, Repr

/-- One entry of the completed-part list submitted to
`completeMultipartUpload`. -/
structure CompletePart where
  ETag : String
  PartNumber : Int
deriving DecidableEq, Repr

/-- Object metadata returned by `putObjectDo`. -/
structure ObjectInfo where
  ETag : String
  Size : Int
deriving DecidableEq, Repr

/-- The HTTP response consumed by `putObjectDo`: status code and the raw
`ETag` header. -/
structure HttpResponse where
  StatusCode : Int
  ETagHeader : String
deriving DecidableEq, Repr

/-- Model of the Go call `strings.TrimPrefix(s, "\"")` followed by
`strings.TrimSuffix(s, "\"")` as applied to the `ETag` header
(source lines 425–426). -/
def trimETag (s : String) : String :=
  let l := s.toList
  let l1 := match l with
    | '"' :: rest => rest
    | _ => l
  let l2 := match l1.reverse with
    | '"' :: rest => rest.reverse
    | _ => l1
  String.mk l2

/-- Model of `putObjectDo` (source lines 376–432), abstracted over the executor
result `executeMethod` (the collaborator `executeMethod("PUT", ...)`) and
over `respToError` (the collaborator `httpRespToErrorResponse`).  Header
assembly is elided: it does not affect the returned `ObjectInfo`.  On a
`200` response the returned `ObjectInfo` carries the trimmed `ETag` header
and `Size` set to the `size` argument (source line 428). -/
def putObjectDo (executeMethod : Except UploadError HttpResponse)
    (respToError : HttpResponse → UploadError)
    (size : Int) : Except UploadError ObjectInfo :=
  match executeMethod with
  | .error e => .error e
  | .ok resp =>
    if resp.StatusCode ≠ 200 then
      .error (respToError resp)
    else
      .ok ⟨trimETag resp.ETagHeader, size⟩

/-- Model of `putObjectNoChecksum` (source lines 337–372), abstracted over the
executor oracle; `isGoogleEndpoint` is the collaborator
`s3utils.IsGoogleEndpoint(c.endpointURL)`.  The reader narrowing and the
progress hook do not affect the returned pair and are elided.  Returns
`(n, err)`. -/
def putObjectNoChecksum (executeMethod : Except UploadError HttpResponse)
    (respToError : HttpResponse → UploadError)
    (isGoogleEndpoint : Bool)
    (bucketName objectName : String) (size : Int) : Int × Option UploadError :=
  if size < 0 && !isGoogleEndpoint then
    (0, some (.entityTooSmall size bucketName objectName))
  else
    match putObjectDo executeMethod respToError size with
    | .error e => (0, some e)
    | .ok st =>
      if st.Size ≠ size then
        (0, some (.unexpectedEOF st.Size size bucketName objectName))
      else
        (size, none)

/-- Whether the post-transfer size-mismatch branch of `putObjectNoChecksum`
(source lines 368–370) is taken on the given inputs. -/
def putObjectNoChecksumMismatchTaken (executeMethod : Except UploadError HttpResponse)
    (respToError : HttpResponse → UploadError)
    (isGoogleEndpoint : Bool) (size : Int) : Bool :=
  if size < 0 && !isGoogleEndpoint then
    false
  else
    match putObjectDo executeMethod respToError size with
    | .error _ => false
    | .ok st => st.Size ≠ size

/-- Model of `uploadedPartRes` (source lines 79–84): the response a worker posts to
the results channel after one part upload. -/
structure uploadedPartRes where
  Error : Option UploadError
  PartNum : Int
  Size : Int
  Part : Option ObjectPart
deriving DecidableEq, Repr

/-- The list `[1, 2, ..., n]` of part numbers as `Int`s. -/
def intRange : Nat → List Int
  | 0 => []
  | m + 1 => intRange m ++ [(m : Int) + 1]

/-- The ordering used by `sort.Sort(completedParts(...))`: completed parts
are ordered by part number (the `completedParts.Less` method of the
collaborator data types). -/
def completedPartsOrder (a b : CompletePart) : Prop :=
  a.PartNumber ≤ b.PartNumber

instance : DecidableRel completedPartsOrder :=
  fun a b => Int.decLe a.PartNumber b.PartNumber

instance : IsTotal CompletePart completedPartsOrder :=
  ⟨fun a b => Int.le_total a.PartNumber b.PartNumber⟩

instance : IsTrans CompletePart completedPartsOrder :=
  ⟨fun _ _ _ => Int.le_trans⟩

/-- Model of `sort.Sort(completedParts(...))` (source lines 231 and 325): sort the
completed-part list by part number.  The Go routine `sort.Sort` guarantees exactly a
permutation of its input that is sorted under `Less`; it is modelled here
by insertion sort under `completedPartsOrder`. -/
def sortCompletedParts (l : List CompletePart) : List CompletePart :=
  List.insertionSort completedPartsOrder l

/-- Result of one multipart upload path: the returned byte count `n`, the
returned error, and — when `completeMultipartUpload` was called — the
completed-part list that was passed to it. -/
structure Outcome where
  n : Int
  err : Option UploadError
  completed : Option (List CompletePart)
deriving DecidableEq, Repr

/-- Accumulated state of the collector loop of
`putObjectMultipartStreamFromReadAt`. -/
structure GatherRes where
  total : Int
  parts : List CompletePart
  err : Option UploadError
deriving DecidableEq, Repr

/-- The collector loop of `putObjectMultipartStreamFromReadAt`
(source lines 199–223), consuming worker results in arrival order.
On the first result carrying an error it stops with the running total;
on a result with no saved part it stops with total `0` and
`InvalidArgument`; otherwise it accumulates the reported size and appends
the pair of `ETag` and `PartNumber`.  The progress hook is elided (it only
copies bytes to a progress sink). -/
def gatherParts : List uploadedPartRes → Int → List CompletePart → GatherRes
  | [], totalUploadedSize, acc => ⟨totalUploadedSize, acc, none⟩
  | r :: rest, totalUploadedSize, acc =>
    match r.Error with
    | some e => ⟨totalUploadedSize, acc, some e⟩
    | none =>
      match r.Part with
      | none =>
          ⟨0, acc, some (.invalidArgument ("Missing part number " ++ toString r.PartNum))⟩
      | some part =>
          gatherParts rest (totalUploadedSize + r.Size)
            (acc ++ [⟨part.ETag, part.PartNumber⟩])

/-- Model of `putObjectMultipartStreamFromReadAt` (source lines 102–239), modelled
from the collector phase on: validation, session initiation and planning
precede it and abort on their own errors; `results` is the sequence of
worker results in arrival order, and `complete` is the collaborator
`completeMultipartUpload`, applied to the sorted completed-part list. -/
def putObjectMultipartStreamFromReadAt
    (complete : List CompletePart → Option UploadError)
    (bucketName objectName : String) (size : Int)
    (results : List uploadedPartRes) : Outcome :=
  let g := gatherParts results 0 []
  match g.err with
  | some e => ⟨g.total, some e, none⟩
  | none =>
    if g.total ≠ size then
      ⟨g.total, some (.unexpectedEOF g.total size bucketName objectName), none⟩
    else
      let sorted := sortCompletedParts g.parts
      match complete sorted with
      | some e => ⟨g.total, some e, some sorted⟩
      | none => ⟨g.total, none, some sorted⟩

/-- The byte range a worker computes for part `p` (source lines 155–168):
offset `(p-1) * partSize` in general, rebound to
`(size - lastPartSize, lastPartSize)` when `p` is the last part number.
`ps` is the current part-size variable of the worker. -/
def workerRange (size lastPartSize lastPartNumber ps p : Int) : Int × Int :=
  if p == lastPartNumber then
    (size - lastPartSize, lastPartSize)
  else
    ((p - 1) * ps, ps)

/-- One worker of `putObjectMultipartStreamFromReadAt`
(source lines 151–194), processing its queue of dequeued part numbers with
the current part-size variable `ps` (mutated by the last-part rebind).
`upload` is the collaborator `uploadPart`, given the part number and the
computed byte range.  Returns the posted results and the part of the queue
left undequeued when the worker exits. -/
def workerRun (upload : Int → Int → Int → Except UploadError ObjectPart)
    (size lastPartSize lastPartNumber : Int) :
    List Int → Int → List uploadedPartRes × List Int
  | [], _ => ([], [])
  | p :: rest, ps =>
    let r := workerRange size lastPartSize lastPartNumber ps p
    match upload p r.1 r.2 with
    | .error e => ([⟨some e, 0, 0, none⟩], rest)
    | .ok objPart =>
      let next := workerRun upload size lastPartSize lastPartNumber rest r.2
      (⟨none, p, objPart.Size, some objPart⟩ :: next.1, next.2)

/-- Accumulated state of the sequential part loop of
`putObjectMultipartStreamNoChecksum`: the value of `partNumber` after the
loop, the `partsInfo` map (as an association list in insertion order), the
accumulated `totalUploadedSize`, and the loop error if it returned
early. -/
structure SeqLoopRes where
  partNumber : Int
  partsInfo : List (Int × ObjectPart)
  total : Int
  err : Option UploadError
deriving DecidableEq, Repr

/-- The planned size of part `p`: `lastPartSize` for the final part,
`partSize` otherwise (source lines 277–279). -/
def plannedSize (partSize lastPartSize totalPartsCount p : Int) : Int :=
  if p == totalPartsCount then lastPartSize else partSize

/-- The part loop of `putObjectMultipartStreamNoChecksum`
(source lines 271–299), iterating over the remaining part numbers.
`upload` is the collaborator `uploadPart`, given the part number and the
planned part size.  `io.EOF` with negative declared size breaks the loop
without error; any other error returns early; success records the part in
`partsInfo` and adds the planned part size to `totalUploadedSize`. -/
def seqLoop (upload : Int → Int → Except UploadError ObjectPart)
    (size partSize lastPartSize totalPartsCount : Int) :
    List Int → List (Int × ObjectPart) → Int → SeqLoopRes
  | [], info, totalUploadedSize => ⟨totalPartsCount + 1, info, totalUploadedSize, none⟩
  | p :: rest, info, totalUploadedSize =>
    let ps := plannedSize partSize lastPartSize totalPartsCount p
    match upload p ps with
    | .error e =>
      if e = UploadError.eof ∧ size < 0 then
        ⟨p, info, totalUploadedSize, none⟩
      else
        ⟨p, info, totalUploadedSize, some e⟩
    | .ok objPart =>
      seqLoop upload size partSize lastPartSize totalPartsCount rest
        (info ++ [(p, objPart)]) (totalUploadedSize + ps)

/-- The completion-list loop of `putObjectMultipartStreamNoChecksum`
(source lines 313–322): for each part index in order, look it up in
`partsInfo`; a missing index aborts with `InvalidArgument`. -/
def buildCompleteLoop (info : List (Int × ObjectPart)) :
    List Int → List CompletePart → Except UploadError (List CompletePart)
  | [], acc => .ok acc
  | i :: rest, acc =>
    match info.lookup i with
    | none => .error (.invalidArgument ("Missing part number " ++ toString i))
    | some part => buildCompleteLoop info rest (acc ++ [⟨part.ETag, part.PartNumber⟩])

/-- The post-loop phase of `putObjectMultipartStreamNoChecksum`
(source lines 301–332): the known-size total check, the completion-list
loop over parts `1 .. partNumber - 1`, the sort, and the call to the
collaborator `completeMultipartUpload`. -/
def finalizeSeq (complete : List CompletePart → Option UploadError)
    (bucketName objectName : String) (size : Int)
    (partNumber : Int) (partsInfo : List (Int × ObjectPart))
    (totalUploadedSize : Int) : Outcome :=
  if size > 0 ∧ totalUploadedSize ≠ size then
    ⟨totalUploadedSize,
     some (.unexpectedEOF totalUploadedSize size bucketName objectName), none⟩
  else
    match buildCompleteLoop partsInfo (intRange (partNumber - 1).toNat) [] with
    | .error e => ⟨0, some e, none⟩
    | .ok parts =>
      let sorted := sortCompletedParts parts
      match complete sorted with
      | some e => ⟨totalUploadedSize, some e, some sorted⟩
      | none => ⟨totalUploadedSize, none, some sorted⟩

/-- Model of `putObjectMultipartStreamNoChecksum` (source lines 241–333), modelled
from the part loop on: validation, session initiation and planning precede
it and abort on their own errors.  Runs the part loop over parts
`1 .. totalPartsCount`, then the post-loop phase. -/
def putObjectMultipartStreamNoChecksum
    (upload : Int → Int → Except UploadError ObjectPart)
    (complete : List CompletePart → Option UploadError)
    (bucketName objectName : String)
    (size partSize lastPartSize totalPartsCount : Int) : Outcome :=
  let r := seqLoop upload size partSize lastPartSize totalPartsCount
    (intRange totalPartsCount.toNat) [] 0
  match r.err with
  | some e => ⟨r.total, some e, none⟩
  | none => finalizeSeq complete bucketName objectName size r.partNumber r.partsInfo r.total

/-- C1: a multipart streaming upload that fails is redirected to the
single-shot path exactly when the classified signature of the error is
multipart-unsupported (code `"AccessDenied"`, message containing
`"Access Denied"`): within the single-shot ceiling the single-shot result
is returned, above the ceiling the operation fails with `EntityTooLarge`,
every non-matching error propagates unchanged, and a successful multipart
upload is returned as is with no fallback. -/
theorem putObjectMultipartStream_fallback_iff
    (bucketName objectName : String) (size n m : Int) (e : UploadError)
    (singleShot : Int × Option UploadError) :
    putObjectMultipartStream bucketName objectName size (n, some e) singleShot =
      (if multipartUnsupported e then
        (if size > maxSinglePutObjectSize then
          (0, some (.entityTooLarge size maxSinglePutObjectSize bucketName objectName))
        else singleShot)
      else (n, some e))
    ∧ putObjectMultipartStream bucketName objectName size (m, none) singleShot
      = (m, none) :=
  ⟨rfl, rfl⟩

/-- C7 (amendment not needed; claim as stated): for a valid chunking plan,
the backward special-case rebind of the last-part byte range in the worker
agrees with the forward derivation from the general formula. -/
theorem workerRange_last_consistent
    (size partSize lastPartSize totalPartsCount : Int)
    (h : (totalPartsCount - 1) * partSize + lastPartSize = size) :
    workerRange size lastPartSize totalPartsCount partSize totalPartsCount =
      ((totalPartsCount - 1) * partSize, lastPartSize) := by
  have h2 : size - lastPartSize = (totalPartsCount - 1) * partSize := by linarith
  simp [workerRange, h2]

/-- Witness for C7 at the concrete plan
`size = 10, partSize = 4, lastPartSize = 2, totalPartsCount = 3`. -/
theorem workerRange_last_consistent_witness :
    workerRange 10 2 3 4 3 = ((3 - 1) * 4, 2) :=
  workerRange_last_consistent 10 4 2 3 (by decide)

/-- C8: with a negative declared size, `putObjectNoChecksum` fails with
`EntityTooSmall` on a non-Google endpoint regardless of the transfer
oracle (so before any transfer request is issued), while on a Google
endpoint the transfer proceeds: its error is surfaced, and a `200`
response completes the upload. -/
theorem putObjectNoChecksum_negative_size
    (respToError : HttpResponse → UploadError)
    (bucketName objectName : String) (size : Int) (h : size < 0) :
    (∀ executeMethod,
      putObjectNoChecksum executeMethod respToError false bucketName objectName size
        = (0, some (.entityTooSmall size bucketName objectName)))
    ∧ (∀ e, putObjectNoChecksum (.error e) respToError true bucketName objectName size
        = (0, some e))
    ∧ (∀ etag, putObjectNoChecksum (.ok ⟨200, etag⟩) respToError true bucketName objectName size
        = (size, none)) := by
  refine ⟨fun executeMethod => ?_, fun e => ?_, fun etag => ?_⟩
  · simp [putObjectNoChecksum, h]
  · simp [putObjectNoChecksum, putObjectDo, h]
  · simp [putObjectNoChecksum, putObjectDo, h]

/-- Witness for C8 at `size = -1` with concrete oracles. -/
theorem putObjectNoChecksum_negative_size_witness :
    putObjectNoChecksum (.ok ⟨500, "e"⟩) (fun _ => .otherErr "x") false "b" "o" (-1)
      = (0, some (.entityTooSmall (-1) "b" "o"))
    ∧ putObjectNoChecksum (.ok ⟨200, "e"⟩) (fun _ => .otherErr "x") true "b" "o" (-1)
      = (-1, none) :=
  ⟨(putObjectNoChecksum_negative_size (fun _ => .otherErr "x") "b" "o" (-1) (by decide)).1 _,
   (putObjectNoChecksum_negative_size (fun _ => .otherErr "x") "b" "o" (-1) (by decide)).2.2 "e"⟩

/-- C9: `putObjectDo` reports `Size` equal to the requested size on every
success, so the post-transfer size-mismatch branch of
`putObjectNoChecksum` is never taken. -/
theorem putObjectDo_mismatch_unreachable
    (executeMethod : Except UploadError HttpResponse)
    (respToError : HttpResponse → UploadError)
    (isGoogleEndpoint : Bool) (size : Int) :
    (∀ st, putObjectDo executeMethod respToError size = .ok st → st.Size = size)
    ∧ putObjectNoChecksumMismatchTaken executeMethod respToError isGoogleEndpoint size
      = false := by
  constructor
  · intro st hst
    cases executeMethod with
    | error e => simp [putObjectDo] at hst
    | ok resp =>
      by_cases h200 : resp.StatusCode = 200
      · simp [putObjectDo, h200] at hst
        rw [← hst]
      · simp [putObjectDo, h200] at hst
  · cases executeMethod with
    | error e => simp [putObjectNoChecksumMismatchTaken, putObjectDo]
    | ok resp =>
      by_cases h200 : resp.StatusCode = 200
      · simp [putObjectNoChecksumMismatchTaken, putObjectDo, h200]
      · simp [putObjectNoChecksumMismatchTaken, putObjectDo, h200]

/-- Witness for C9 at a concrete `200` response and `size = 7`. -/
theorem putObjectDo_mismatch_unreachable_witness :
    (⟨"abc", (7 : Int)⟩ : ObjectInfo).Size = 7
    ∧ putObjectNoChecksumMismatchTaken (.ok ⟨200, "abc"⟩) (fun _ => .otherErr "x") false 7
      = false :=
  ⟨(putObjectDo_mismatch_unreachable (.ok ⟨200, "abc"⟩) (fun _ => .otherErr "x") false 7).1
      ⟨"abc", 7⟩ rfl,
   (putObjectDo_mismatch_unreachable (.ok ⟨200, "abc"⟩) (fun _ => .otherErr "x") false 7).2⟩

/-- C6 counterexample: a worker whose first part upload fails posts the
failure result and exits with the task queue not drained — here task `2`
is left undequeued — refuting "exiting only when the task queue is
drained". -/
theorem workerRun_exit_counterexample :
    (workerRun (fun _ _ _ => .error (.otherErr "network failure")) 10 5 2 [1, 2] 5).2 = [2]
    ∧ (workerRun (fun _ _ _ => .error (.otherErr "network failure")) 10 5 2 [1, 2] 5).1
      = [⟨some (.otherErr "network failure"), 0, 0, none⟩] := by
  constructor
  · rfl
  · rfl

/-- C6 as amended: each worker posts exactly one result per task it
dequeues (posted results plus undequeued tasks account for the whole
queue), and whenever the worker exits with the queue not drained its last
posted result is a failure result — i.e. it proceeds to the next task
after a success, but exits immediately after posting a failure. -/
theorem workerRun_one_result_per_task
    (upload : Int → Int → Int → Except UploadError ObjectPart)
    (size lastPartSize lastPartNumber : Int) (q : List Int) (ps : Int) :
    (workerRun upload size lastPartSize lastPartNumber q ps).1.length
      + (workerRun upload size lastPartSize lastPartNumber q ps).2.length = q.length
    ∧ ((workerRun upload size lastPartSize lastPartNumber q ps).2 ≠ [] →
      ∃ e pre, (workerRun upload size lastPartSize lastPartNumber q ps).1
        = pre ++ [⟨some e, 0, 0, none⟩]) := by
  induction q generalizing ps with
  | nil => exact ⟨rfl, fun hne => absurd rfl hne⟩
  | cons p rest ih =>
    simp only [workerRun]
    cases hup : upload p (workerRange size lastPartSize lastPartNumber ps p).1
        (workerRange size lastPartSize lastPartNumber ps p).2 with
    | error e =>
      refine ⟨by simp; omega, fun _ => ⟨e, [], by simp⟩⟩
    | ok objPart =>
      obtain ⟨ihlen, ihlast⟩ := ih (workerRange size lastPartSize lastPartNumber ps p).2
      constructor
      · simp only [List.length_cons]
        omega
      · intro hne
        obtain ⟨e, pre, hpre⟩ := ihlast hne
        exact ⟨e, ⟨none, p, objPart.Size, some objPart⟩ :: pre, by simp [hpre]⟩

/-- The completed-part entries the collector appends for a list of
successful results. -/
def resParts (rs : List uploadedPartRes) : List CompletePart :=
  rs.filterMap (fun r => r.Part.map (fun pt => ⟨pt.ETag, pt.PartNumber⟩))

theorem gatherParts_append_ok (rs : List uploadedPartRes)
    (h : ∀ r ∈ rs, r.Error = none ∧ r.Part.isSome) (rest : List uploadedPartRes)
    (t : Int) (acc : List CompletePart) :
    gatherParts (rs ++ rest) t acc
      = gatherParts rest (t + (rs.map uploadedPartRes.Size).sum) (acc ++ resParts rs) := by
  induction rs generalizing t acc with
  | nil => simp [resParts]
  | cons r rs ih =>
    obtain ⟨he, hp⟩ := h r (by simp)
    obtain ⟨pt, hpt⟩ := Option.isSome_iff_exists.mp hp
    simp only [List.cons_append, gatherParts, he, hpt]
    simp only [List.append_eq]
    rw [ih (fun x hx => h x (by simp [hx]))]
    simp only [List.map_cons, List.sum_cons, resParts, List.filterMap_cons, hpt,
      Option.map_some, List.append_assoc, List.singleton_append]
    rw [add_assoc]
    rfl

theorem seqLoop_all_ok
    (upload : Int → Int → Except UploadError ObjectPart) (f : Int → ObjectPart)
    (size partSize lastPartSize totalPartsCount : Int) (L : List Int)
    (hok : ∀ p ∈ L,
      upload p (plannedSize partSize lastPartSize totalPartsCount p) = .ok (f p)) :
    ∀ info t, seqLoop upload size partSize lastPartSize totalPartsCount L info t
      = ⟨totalPartsCount + 1, info ++ L.map (fun p => (p, f p)),
         t + (L.map (plannedSize partSize lastPartSize totalPartsCount)).sum, none⟩ := by
  induction L with
  | nil => intro info t; simp [seqLoop]
  | cons p rest ih =>
    intro info t
    have hp := hok p (by simp)
    simp only [seqLoop, hp]
    rw [ih (fun x hx => hok x (by simp [hx]))]
    simp [add_assoc]

/-- C5: the collector stops on the first result carrying an error: the
whole operation returns that error together with the byte total of the
previously received successful results, irrespective of the results of
the remaining parts (`rest` is arbitrary and unused), and no finalization
happens. -/
theorem collector_stops_on_first_error
    (complete : List CompletePart → Option UploadError)
    (bucketName objectName : String) (size : Int)
    (good : List uploadedPartRes) (bad : uploadedPartRes)
    (rest : List uploadedPartRes) (e : UploadError)
    (hgood : ∀ r ∈ good, r.Error = none ∧ r.Part.isSome)
    (hbad : bad.Error = some e) :
    gatherParts (good ++ bad :: rest) 0 []
      = ⟨(good.map uploadedPartRes.Size).sum, resParts good, some e⟩
    ∧ putObjectMultipartStreamFromReadAt complete bucketName objectName size
        (good ++ bad :: rest)
      = ⟨(good.map uploadedPartRes.Size).sum, some e, none⟩ := by
  have h1 : gatherParts (good ++ bad :: rest) 0 []
      = ⟨(good.map uploadedPartRes.Size).sum, resParts good, some e⟩ := by
    rw [gatherParts_append_ok good hgood]
    simp [gatherParts, hbad]
  refine ⟨h1, ?_⟩
  simp [putObjectMultipartStreamFromReadAt, h1]

/-- Witness for C5: one successful result of 3 bytes, then a failure,
then one more pending result that is never consulted. -/
theorem collector_stops_on_first_error_witness :
    gatherParts
      ([⟨none, 1, 3, some ⟨1, "a", 3⟩⟩] ++ ⟨some (.otherErr "x"), 0, 0, none⟩
        :: [⟨none, 2, 4, some ⟨2, "b", 4⟩⟩]) 0 []
      = ⟨3, [⟨"a", 1⟩], some (.otherErr "x")⟩
    ∧ putObjectMultipartStreamFromReadAt (fun _ => none) "b" "o" 7
        ([⟨none, 1, 3, some ⟨1, "a", 3⟩⟩] ++ ⟨some (.otherErr "x"), 0, 0, none⟩
          :: [⟨none, 2, 4, some ⟨2, "b", 4⟩⟩])
      = ⟨3, some (.otherErr "x"), none⟩ := by
  have h := collector_stops_on_first_error (fun _ => none) "b" "o" 7
    [⟨none, 1, 3, some ⟨1, "a", 3⟩⟩] ⟨some (.otherErr "x"), 0, 0, none⟩
    [⟨none, 2, 4, some ⟨2, "b", 4⟩⟩] (.otherErr "x") (by decide) rfl
  simpa using h

/-- C10: the sequential loop accumulates the planned part sizes
(`partSize`, or `lastPartSize` for the final part) of its completed
iterations — the sizes inside the collaborator-returned parts `f p` are
arbitrary and do not enter the total — whereas the concurrent collector
accumulates exactly the collaborator-reported result sizes. -/
theorem uploaded_total_planned_vs_reported
    (upload : Int → Int → Except UploadError ObjectPart) (f : Int → ObjectPart)
    (size partSize lastPartSize totalPartsCount : Int) (L : List Int)
    (hok : ∀ p ∈ L,
      upload p (plannedSize partSize lastPartSize totalPartsCount p) = .ok (f p))
    (results : List uploadedPartRes) (t : Int) (acc : List CompletePart)
    (hres : ∀ r ∈ results, r.Error = none ∧ r.Part.isSome) :
    (seqLoop upload size partSize lastPartSize totalPartsCount L [] 0).total
      = (L.map (plannedSize partSize lastPartSize totalPartsCount)).sum
    ∧ (gatherParts results t acc).total
      = t + (results.map uploadedPartRes.Size).sum := by
  constructor
  · rw [seqLoop_all_ok upload f size partSize lastPartSize totalPartsCount L hok]
    simp
  · have h2 := gatherParts_append_ok results hres [] t acc
    rw [List.append_nil] at h2
    rw [h2]
    simp [gatherParts]

/-- Witness for C10: a collaborator reporting wildly wrong sizes (999)
does not affect the sequential total (planned `5 + 2`), while the
collector total is exactly the reported sizes. -/
theorem uploaded_total_planned_vs_reported_witness :
    (seqLoop (fun p _ => .ok ⟨p, "t", 999⟩) 7 5 2 2 [1, 2] [] 0).total = 7
    ∧ (gatherParts [⟨none, 1, 3, some ⟨1, "a", 3⟩⟩] 0 []).total = 3 := by
  have h := uploaded_total_planned_vs_reported (fun p _ => .ok ⟨p, "t", 999⟩)
    (fun p => ⟨p, "t", 999⟩) 7 5 2 2 [1, 2] (fun p _ => rfl)
    [⟨none, 1, 3, some ⟨1, "a", 3⟩⟩] 0 [] (by decide)
  simpa using h

theorem mem_intRange {p : Int} {n : Nat} : p ∈ intRange n ↔ 1 ≤ p ∧ p ≤ (n : Int) := by
  induction n with
  | zero =>
    simp only [intRange, List.not_mem_nil, false_iff]
    omega
  | succ m ih =>
    simp only [intRange, List.mem_append, List.mem_singleton, ih]
    omega

theorem intRange_split (n k : Nat) (hk1 : 1 ≤ k) (hk2 : k ≤ n) :
    ∃ L2, intRange n = intRange (k - 1) ++ (k : Int) :: L2 := by
  induction n with
  | zero => omega
  | succ m ih =>
    by_cases hkm : k ≤ m
    · obtain ⟨L2, hL2⟩ := ih hkm
      refine ⟨L2 ++ [(m : Int) + 1], ?_⟩
      rw [intRange, hL2]
      simp
    · have hk : k = m + 1 := by omega
      subst hk
      refine ⟨[], ?_⟩
      have hcast : ((m + 1 : Nat) : Int) = (m : Int) + 1 := by push_cast; ring
      rw [intRange, Nat.add_sub_cancel, hcast]

theorem intRange_pairwise_lt (n : Nat) : List.Pairwise (· < ·) (intRange n) := by
  induction n with
  | zero => exact List.Pairwise.nil
  | succ m ih =>
    rw [intRange]
    apply List.pairwise_append.mpr
    refine ⟨ih, List.pairwise_singleton _ _, ?_⟩
    intro a ha b hb
    rw [List.mem_singleton] at hb
    subst hb
    have := mem_intRange.mp ha
    omega

/-- Sorting a completed-part list whose part numbers are a permutation of
`1 .. n` yields part numbers exactly `1, 2, ..., n` in order: strictly
ascending, no duplicates, contiguous from 1. -/
theorem sortCompletedParts_map_perm_range (l : List CompletePart) (n : Nat)
    (h : (l.map CompletePart.PartNumber).Perm (intRange n)) :
    (sortCompletedParts l).map CompletePart.PartNumber = intRange n := by
  have hperm : ((sortCompletedParts l).map CompletePart.PartNumber).Perm (intRange n) :=
    ((List.perm_insertionSort completedPartsOrder l).map CompletePart.PartNumber).trans h
  have hsorted1 :
      List.Sorted (· ≤ ·) ((sortCompletedParts l).map CompletePart.PartNumber) :=
    List.Pairwise.map CompletePart.PartNumber (fun _ _ hab => hab)
      (List.sorted_insertionSort completedPartsOrder l)
  have hsorted2 : List.Sorted (· ≤ ·) (intRange n) :=
    (intRange_pairwise_lt n).imp le_of_lt
  exact List.eq_of_perm_of_sorted hperm hsorted1 hsorted2

theorem lookup_map_self (f : Int → ObjectPart) (L : List Int) (i : Int) (hi : i ∈ L) :
    (L.map (fun p => (p, f p))).lookup i = some (f i) := by
  induction L with
  | nil => cases hi
  | cons p rest ih =>
    simp only [List.map_cons, List.lookup_cons]
    by_cases h : i = p
    · subst h
      simp
    · have hb : (i == p) = false := beq_eq_false_iff_ne.mpr h
      have hmem : i ∈ rest := by
        rcases List.mem_cons.mp hi with h' | h'
        · exact absurd h' h
        · exact h'
      simp [hb, ih hmem]

theorem buildCompleteLoop_ok (g : Int → ObjectPart) (info : List (Int × ObjectPart)) :
    ∀ L : List Int, (∀ i ∈ L, info.lookup i = some (g i)) →
      ∀ acc, buildCompleteLoop info L acc
        = .ok (acc ++ L.map (fun i => ⟨(g i).ETag, (g i).PartNumber⟩)) := by
  intro L
  induction L with
  | nil => intro _ acc; simp [buildCompleteLoop]
  | cons i rest ih =>
    intro h acc
    have hi := h i (by simp)
    simp only [buildCompleteLoop, hi]
    rw [ih (fun x hx => h x (by simp [hx]))]
    simp

theorem buildCompleteLoop_missing (info : List (Int × ObjectPart)) (m : Int) :
    ∀ L : List Int,
      L.find? (fun i => (info.lookup i).isNone) = some m →
      ∀ acc, buildCompleteLoop info L acc
        = .error (.invalidArgument ("Missing part number " ++ toString m)) := by
  intro L
  induction L with
  | nil => intro h; simp [List.find?] at h
  | cons i rest ih =>
    intro h acc
    by_cases hmiss : ((info.lookup i).isNone : Bool) = true
    · rw [@List.find?_cons_of_pos _ (fun j => (info.lookup j).isNone) i rest hmiss] at h
      obtain rfl : i = m := by simpa using h
      obtain hnone : info.lookup i = none := Option.isNone_iff_eq_none.mp hmiss
      simp [buildCompleteLoop, hnone]
    · rw [@List.find?_cons_of_neg _ (fun j => (info.lookup j).isNone) i rest
        (by simpa using hmiss)] at h
      obtain ⟨part, hpart⟩ : ∃ part, info.lookup i = some part := by
        cases hl : info.lookup i with
        | none => rw [hl] at hmiss; simp at hmiss
        | some part => exact ⟨part, rfl⟩
      simp only [buildCompleteLoop, hpart]
      exact ih h _

theorem seqLoop_eof_break
    (upload : Int → Int → Except UploadError ObjectPart) (f : Int → ObjectPart)
    (size partSize lastPartSize totalPartsCount : Int) (k : Int) (L2 : List Int)
    (hsize : size < 0)
    (heof : upload k (plannedSize partSize lastPartSize totalPartsCount k)
      = .error .eof) :
    ∀ L1 : List Int, (∀ p ∈ L1,
      upload p (plannedSize partSize lastPartSize totalPartsCount p) = .ok (f p)) →
    ∀ info t, seqLoop upload size partSize lastPartSize totalPartsCount
        (L1 ++ k :: L2) info t
      = ⟨k, info ++ L1.map (fun p => (p, f p)),
         t + (L1.map (plannedSize partSize lastPartSize totalPartsCount)).sum, none⟩ := by
  intro L1
  induction L1 with
  | nil =>
    intro _ info t
    simp [seqLoop, heof, hsize]
  | cons p rest ih =>
    intro hok info t
    have hp := hok p (by simp)
    simp only [List.cons_append, seqLoop, hp]
    simp only [List.append_eq]
    rw [ih (fun x hx => hok x (by simp [hx]))]
    simp [add_assoc]

/-- C4: for a sequential upload with unknown declared size (negative
sentinel), end-of-data (`io.EOF`) at part `k` terminates the part loop
early without error; the completed-part list submitted to finalization
contains exactly the parts `1 .. k-1` uploaded before end-of-data, and
the operation returns success. -/
theorem seq_unknown_size_eof_success
    (upload : Int → Int → Except UploadError ObjectPart)
    (complete : List CompletePart → Option UploadError)
    (f : Int → ObjectPart) (bucketName objectName : String)
    (size partSize lastPartSize totalPartsCount : Int) (k : Nat)
    (hsize : size < 0) (hk1 : 1 ≤ k) (hk2 : (k : Int) ≤ totalPartsCount)
    (hok : ∀ p : Int, 1 ≤ p → p ≤ (k : Int) - 1 →
      upload p (plannedSize partSize lastPartSize totalPartsCount p) = .ok (f p))
    (hnum : ∀ p : Int, 1 ≤ p → p ≤ (k : Int) - 1 → (f p).PartNumber = p)
    (heof : upload (k : Int) (plannedSize partSize lastPartSize totalPartsCount (k : Int))
      = .error .eof)
    (hcomp : ∀ l, complete l = none) :
    putObjectMultipartStreamNoChecksum upload complete bucketName objectName
        size partSize lastPartSize totalPartsCount
      = ⟨((intRange (k - 1)).map (plannedSize partSize lastPartSize totalPartsCount)).sum,
         none,
         some ((intRange (k - 1)).map (fun p => ⟨(f p).ETag, p⟩))⟩ := by
  have hkn : k ≤ totalPartsCount.toNat := by omega
  obtain ⟨L2, hsplit⟩ := intRange_split totalPartsCount.toNat k hk1 hkn
  have hloop := seqLoop_eof_break upload f size partSize lastPartSize totalPartsCount
    (k : Int) L2 hsize heof (intRange (k - 1))
    (fun p hp => by
      have hm := mem_intRange.mp hp
      exact hok p hm.1 (by omega))
    [] 0
  simp only [putObjectMultipartStreamNoChecksum]
  rw [hsplit, hloop]
  simp only [List.nil_append, zero_add]
  simp only [finalizeSeq]
  rw [if_neg (fun hcon => absurd hcon.1 (by omega))]
  have hcast : ((k : Int) - 1).toNat = k - 1 := by omega
  rw [hcast]
  rw [buildCompleteLoop_ok f ((intRange (k - 1)).map (fun p => (p, f p))) (intRange (k - 1))
    (fun i hi => lookup_map_self f _ i hi) []]
  simp only [List.nil_append]
  have hmap : (intRange (k - 1)).map
      (fun i => (⟨(f i).ETag, (f i).PartNumber⟩ : CompletePart))
      = (intRange (k - 1)).map (fun i => (⟨(f i).ETag, i⟩ : CompletePart)) :=
    List.map_congr_left (fun i hi => by
      have hm := mem_intRange.mp hi
      rw [hnum i hm.1 (by omega)])
  rw [hmap]
  have hsorted : List.Sorted completedPartsOrder
      ((intRange (k - 1)).map (fun i => (⟨(f i).ETag, i⟩ : CompletePart))) :=
    List.Pairwise.map _ (fun a b hab => le_of_lt hab) (intRange_pairwise_lt (k - 1))
  have hfix : sortCompletedParts
      ((intRange (k - 1)).map (fun i => (⟨(f i).ETag, i⟩ : CompletePart)))
      = (intRange (k - 1)).map (fun i => (⟨(f i).ETag, i⟩ : CompletePart)) :=
    List.Sorted.insertionSort_eq hsorted
  simp only [hfix, hcomp]

/-- C3: whenever finalization is reached, the completed-part list passed
to `completeMultipartUpload` has part numbers exactly `1, 2, ..., n` —
sorted strictly ascending, no duplicates, contiguous from part 1 — in the
concurrent path (whose successfully gathered part numbers are a
permutation of `1 .. n`) as well as in the sequential path (whose
`partsInfo` holds every index with matching part number); and a detected
gap (an index of `1 .. partNumber-1` missing from `partsInfo`) makes the
sequential path fail with `InvalidArgument` naming the first missing part
number, with no finalization call. -/
theorem completed_list_sorted_contiguous
    (complete : List CompletePart → Option UploadError)
    (bucketName objectName : String) (size : Int)
    (results : List uploadedPartRes) (n : Nat)
    (partNumber totalUploadedSize : Int) (info : List (Int × ObjectPart))
    (g : Int → ObjectPart) (m : Int) :
    ((((gatherParts results 0 []).parts.map CompletePart.PartNumber).Perm (intRange n)) →
      ∀ l, (putObjectMultipartStreamFromReadAt complete bucketName objectName size
          results).completed = some l →
        l.map CompletePart.PartNumber = intRange n)
    ∧ (((intRange (partNumber - 1).toNat).find? (fun i => (info.lookup i).isNone)
          = some m) →
      ¬(size > 0 ∧ totalUploadedSize ≠ size) →
      finalizeSeq complete bucketName objectName size partNumber info totalUploadedSize
        = ⟨0, some (.invalidArgument ("Missing part number " ++ toString m)), none⟩)
    ∧ ((∀ i ∈ intRange (partNumber - 1).toNat,
          info.lookup i = some (g i) ∧ (g i).PartNumber = i) →
      ∀ l, (finalizeSeq complete bucketName objectName size partNumber info
          totalUploadedSize).completed = some l →
        l.map CompletePart.PartNumber = intRange (partNumber - 1).toNat) := by
  refine ⟨fun hperm l hl => ?_, fun hfind hguard => ?_, fun hinfo l hl => ?_⟩
  · simp only [putObjectMultipartStreamFromReadAt] at hl
    cases herr : (gatherParts results 0 []).err with
    | some e =>
      rw [herr] at hl
      simp at hl
    | none =>
      rw [herr] at hl
      by_cases htot : (gatherParts results 0 []).total ≠ size
      · rw [if_pos htot] at hl
        simp at hl
      · rw [if_neg htot] at hl
        have hsorted := sortCompletedParts_map_perm_range _ n hperm
        cases hc : complete (sortCompletedParts (gatherParts results 0 []).parts) with
        | some e =>
          rw [hc] at hl
          rw [← Option.some.inj hl]
          exact hsorted
        | none =>
          rw [hc] at hl
          rw [← Option.some.inj hl]
          exact hsorted
  · simp only [finalizeSeq]
    rw [if_neg hguard]
    rw [buildCompleteLoop_missing info m (intRange (partNumber - 1).toNat) hfind []]
  · simp only [finalizeSeq] at hl
    by_cases hguard : size > 0 ∧ totalUploadedSize ≠ size
    · rw [if_pos hguard] at hl
      exact absurd hl (by simp)
    · rw [if_neg hguard] at hl
      rw [buildCompleteLoop_ok g info (intRange (partNumber - 1).toNat)
        (fun i hi => (hinfo i hi).1) []] at hl
      simp only [List.nil_append] at hl
      have hkeys : (((intRange (partNumber - 1).toNat).map
            (fun i => (⟨(g i).ETag, (g i).PartNumber⟩ : CompletePart))).map
            CompletePart.PartNumber).Perm (intRange (partNumber - 1).toNat) := by
        rw [List.map_map,
          List.map_congr_left (fun i hi =>
            show (CompletePart.PartNumber ∘
                fun i => (⟨(g i).ETag, (g i).PartNumber⟩ : CompletePart)) i = id i
              from (hinfo i hi).2),
          List.map_id]
      have hsorted := sortCompletedParts_map_perm_range _ _ hkeys
      cases hc : complete (sortCompletedParts ((intRange (partNumber - 1).toNat).map
          (fun i => (⟨(g i).ETag, (g i).PartNumber⟩ : CompletePart)))) with
      | some e =>
        rw [hc] at hl
        rw [← Option.some.inj hl]
        exact hsorted
      | none =>
        rw [hc] at hl
        rw [← Option.some.inj hl]
        exact hsorted

/-- Witness for C3: concurrent results arriving out of order `[2, 1]`
sort to `[1, 2]`; a `partsInfo` missing part 2 fails with
`InvalidArgument`; a complete sequential `partsInfo` finalizes `[1]`. -/
theorem completed_list_sorted_contiguous_witness :
    [(⟨"a", 1⟩ : CompletePart), ⟨"b", 2⟩].map CompletePart.PartNumber = intRange 2
    ∧ finalizeSeq (fun _ => none) "b" "o" (-1) 3 [(1, ⟨1, "a", 5⟩)] 5
      = ⟨0, some (.invalidArgument ("Missing part number " ++ toString (2 : Int))), none⟩
    ∧ [(⟨"a", 1⟩ : CompletePart)].map CompletePart.PartNumber = intRange 1 := by
  have h := completed_list_sorted_contiguous (fun _ => none) "b" "o" 7
    [⟨none, 2, 4, some ⟨2, "b", 4⟩⟩, ⟨none, 1, 3, some ⟨1, "a", 3⟩⟩] 2
    3 5 [(1, ⟨1, "a", 5⟩)] (fun i => ⟨i, "a", 5⟩) 2
  have h2 := completed_list_sorted_contiguous (fun _ => none) "b" "o" (-1)
    [] 0 3 5 [(1, ⟨1, "a", 5⟩)] (fun i => ⟨i, "a", 5⟩) 2
  have h3 := completed_list_sorted_contiguous (fun _ => none) "b" "o" (-1)
    [] 0 2 5 [(1, ⟨1, "a", 5⟩)] (fun i => ⟨i, "a", 5⟩) 2
  refine ⟨?_, ?_, ?_⟩
  · exact h.1 (by decide) [⟨"a", 1⟩, ⟨"b", 2⟩] (by decide)
  · exact h2.2.1 (by decide) (by decide)
  · exact h3.2.2 (by decide) [⟨"a", 1⟩] (by decide)

/-- Witness for C4: `size = -1`, plan `(3, 5, 2)`, end-of-data at part 2:
one part of 5 bytes completes and the operation succeeds. -/
theorem seq_unknown_size_eof_success_witness :
    putObjectMultipartStreamNoChecksum
        (fun p ps => if p ≤ 1 then .ok ⟨p, "e", ps⟩ else .error .eof)
        (fun _ => none) "b" "o" (-1) 5 2 3
      = ⟨5, none, some [⟨"e", 1⟩]⟩ := by
  have h := seq_unknown_size_eof_success
    (fun p ps => if p ≤ 1 then .ok ⟨p, "e", ps⟩ else .error .eof)
    (fun _ => none) (fun p => ⟨p, "e", 5⟩) "b" "o" (-1) 5 2 3 2
    (by decide) (by decide) (by decide)
    (fun p h1 h2 => by
      have hp : p = 1 := by omega
      subst hp
      rfl)
    (fun p h1 h2 => rfl)
    rfl (fun _ => rfl)
  exact h.trans (by decide)

/-- C2: with a known declared size, a mismatch between the accumulated
uploaded total and the declared size at the end of the part-upload phase
fails the operation with `UnexpectedEOF` — in the concurrent path after
all results are collected, and in the sequential path after the part
loop — while a matching total proceeds to finalization and, when
finalization succeeds, returns the declared size. -/
theorem uploaded_total_checked
    (complete : List CompletePart → Option UploadError)
    (bucketName objectName : String) (size : Int)
    (results : List uploadedPartRes)
    (partNumber totalUploadedSize : Int) (info : List (Int × ObjectPart)) :
    ((gatherParts results 0 []).err = none →
      ((gatherParts results 0 []).total ≠ size →
        putObjectMultipartStreamFromReadAt complete bucketName objectName size results
          = ⟨(gatherParts results 0 []).total,
             some (.unexpectedEOF (gatherParts results 0 []).total size
               bucketName objectName), none⟩)
      ∧ ((gatherParts results 0 []).total = size →
          complete (sortCompletedParts (gatherParts results 0 []).parts) = none →
          putObjectMultipartStreamFromReadAt complete bucketName objectName size results
            = ⟨size, none, some (sortCompletedParts (gatherParts results 0 []).parts)⟩))
    ∧ (0 < size → totalUploadedSize ≠ size →
        finalizeSeq complete bucketName objectName size partNumber info totalUploadedSize
          = ⟨totalUploadedSize,
             some (.unexpectedEOF totalUploadedSize size bucketName objectName), none⟩)
    ∧ (totalUploadedSize = size →
        ∀ parts, buildCompleteLoop info (intRange (partNumber - 1).toNat) [] = .ok parts →
        complete (sortCompletedParts parts) = none →
        finalizeSeq complete bucketName objectName size partNumber info totalUploadedSize
          = ⟨size, none, some (sortCompletedParts parts)⟩) := by
  refine ⟨fun herr => ⟨fun htot => ?_, fun htot hcomp => ?_⟩, fun hpos htot => ?_,
    fun htot parts hbuild hcomp => ?_⟩
  · simp [putObjectMultipartStreamFromReadAt, herr, htot]
  · simp [putObjectMultipartStreamFromReadAt, herr, htot, hcomp]
  · simp [finalizeSeq, hpos, htot]
  · subst htot
    simp only [finalizeSeq]
    rw [if_neg (by simp), hbuild]
    simp only [hcomp]

/-- Witness for C2: a single 5-byte part against declared sizes 7
(mismatch, both paths) and 5 (match, both paths). -/
theorem uploaded_total_checked_witness :
    putObjectMultipartStreamFromReadAt (fun _ => none) "b" "o" 7
        [⟨none, 1, 5, some ⟨1, "a", 5⟩⟩]
      = ⟨5, some (.unexpectedEOF 5 7 "b" "o"), none⟩
    ∧ putObjectMultipartStreamFromReadAt (fun _ => none) "b" "o" 5
        [⟨none, 1, 5, some ⟨1, "a", 5⟩⟩]
      = ⟨5, none, some [⟨"a", 1⟩]⟩
    ∧ finalizeSeq (fun _ => none) "b" "o" 7 2 [(1, ⟨1, "a", 5⟩)] 5
      = ⟨5, some (.unexpectedEOF 5 7 "b" "o"), none⟩
    ∧ finalizeSeq (fun _ => none) "b" "o" 5 2 [(1, ⟨1, "a", 5⟩)] 5
      = ⟨5, none, some [⟨"a", 1⟩]⟩ := by
  have h7 := uploaded_total_checked (fun _ => none) "b" "o" 7
    [⟨none, 1, 5, some ⟨1, "a", 5⟩⟩] 2 5 [(1, ⟨1, "a", 5⟩)]
  have h5 := uploaded_total_checked (fun _ => none) "b" "o" 5
    [⟨none, 1, 5, some ⟨1, "a", 5⟩⟩] 2 5 [(1, ⟨1, "a", 5⟩)]
  refine ⟨?_, ?_, ?_, ?_⟩
  · have h := (h7.1 (by decide)).1 (by decide)
    exact h.trans (by decide)
  · have h := (h5.1 (by decide)).2 (by decide) rfl
    exact h.trans (by decide)
  · exact h7.2.1 (by decide) (by decide)
  · have h := h5.2.2 rfl [⟨"a", 1⟩] rfl rfl
    exact h.trans (by decide)

/-- Witness for C6's amended theorem at a concrete failing oracle and
queue `[1, 2]`. -/
theorem workerRun_one_result_per_task_witness :
    (workerRun (fun _ _ _ => .error (.otherErr "boom")) 10 5 2 [1, 2] 5).1.length
      + (workerRun (fun _ _ _ => .error (.otherErr "boom")) 10 5 2 [1, 2] 5).2.length = 2
    ∧ ∃ e pre, (workerRun (fun _ _ _ => .error (.otherErr "boom")) 10 5 2 [1, 2] 5).1
        = pre ++ [⟨some e, 0, 0, none⟩] :=
  ⟨(workerRun_one_result_per_task (fun _ _ _ => .error (.otherErr "boom")) 10 5 2 [1, 2] 5).1,
   (workerRun_one_result_per_task (fun _ _ _ => .error (.otherErr "boom")) 10 5 2 [1, 2] 5).2
     (by decide)⟩

end MinioGo
